import Mathlib

/-!
Verification of the go-nmea decoding library (package `nmea`).

The definitions below are a shallow embedding of the library's source
(`parseMessage`, `checkChecksum`, the per-sentence decoders, the
`cumulativeErrorParser` field primitives, the `GSVAccumulator` state
machine and the `Process` stream driver).

Modelling conventions:
* Go strings are modelled as their character sequences (`List Char`).
  The frames handled by the library are ASCII, where Go's byte
  indexing and rune iteration coincide with positional characters.
* Go `float64` values are modelled exactly as fractions (`Frac`),
  i.e. the decimal arithmetic the decoders perform is carried out
  without rounding.  The claims compared against concrete values use
  tolerances that absorb the (much smaller) float64 rounding.
* Handler invocation (the only side effect of decoding) is modelled
  by returning the list of records handed to the consumer; the
  consumer's capability set (which handler interfaces it implements)
  is a record of Booleans.
* Fallible Go calls return `Option`/pairs with an explicit error.
* Inputs on which the Go code panics (out-of-range indexing on
  slices too short for a decoder) are outside the model; theorems
  quantifying over token lists carry the corresponding length
  hypotheses.
-/

/-- Go strings, as their character sequences. -/
abbrev Str := List Char

/-- Exact fraction model for the `float64` values the decoders
compute.  The denominator is kept positive; no normalisation is
performed so that every operation reduces in the kernel. -/
structure Frac where
  num : Int
  den : Nat
  deriving DecidableEq, Repr

/-- The fraction `n / 1`. -/
def Frac.ofInt (n : Int) : Frac := ⟨n, 1⟩

/-- Zero, the value Go's deferred-error primitives yield for empty or
malformed fields. -/
def Frac.zero : Frac := ⟨0, 1⟩

/-- Addition of fractions (`a/b + c/d = (ad + cb)/(bd)`). -/
def Frac.add (x y : Frac) : Frac := ⟨x.num * y.den + y.num * x.den, x.den * y.den⟩

/-- Negation of a fraction; models Go's `*= -1`. -/
def Frac.neg (x : Frac) : Frac := ⟨-x.num, x.den⟩

/-- Division of a fraction by a positive natural constant; models the
`/ 60.0` in the position decoder. -/
def Frac.divNat (x : Frac) (n : Nat) : Frac := ⟨x.num, x.den * n⟩

/-- Subtraction, used only to state tolerance bounds. -/
def Frac.sub (x y : Frac) : Frac := x.add y.neg

/-- Value equality of fractions (cross multiplication). -/
def Frac.veq (x y : Frac) : Prop := x.num * (y.den : Int) = y.num * (x.den : Int)

instance : DecidablePred (fun p : Frac × Frac => p.1.veq p.2) := fun _ => by
  unfold Frac.veq; infer_instance

instance (x y : Frac) : Decidable (x.veq y) := by
  unfold Frac.veq; infer_instance

/-- `|x| < |y|` on fractions with positive denominators, used to state
approximation tolerances. -/
def Frac.absLt (x y : Frac) : Prop :=
  x.num.natAbs * y.den < y.num.natAbs * x.den

instance (x y : Frac) : Decidable (x.absLt y) := by
  unfold Frac.absLt; infer_instance

/-- Decimal digit test. -/
def isDigit (c : Char) : Bool := '0' ≤ c && c ≤ '9'

/-- Numeric value of a decimal digit. -/
def digitVal (c : Char) : Nat := c.toNat - '0'.toNat

/-- Numeric value of a string of decimal digits. -/
def digitsVal (s : Str) : Nat := s.foldl (fun a c => a * 10 + digitVal c) 0

/-- Hexadecimal digit test (both cases, as accepted by Go's
`strconv.ParseInt` with base 16). -/
def isHexDigit (c : Char) : Bool :=
  ('0' ≤ c && c ≤ '9') || ('a' ≤ c && c ≤ 'f') || ('A' ≤ c && c ≤ 'F')

/-- Numeric value of a hexadecimal digit. -/
def hexDigitVal (c : Char) : Nat :=
  if '0' ≤ c && c ≤ '9' then c.toNat - '0'.toNat
  else if 'a' ≤ c && c ≤ 'f' then c.toNat - 'a'.toNat + 10
  else c.toNat - 'A'.toNat + 10

/-- Numeric value of a string of hexadecimal digits. -/
def hexDigitsVal (s : Str) : Nat := s.foldl (fun a c => a * 16 + hexDigitVal c) 0

/-- Splits an optional leading sign off a Go number literal, returning
the sign as `1` or `-1` and the remainder. -/
def splitSign : Str → Int × Str
  | '+' :: rest => (1, rest)
  | '-' :: rest => (-1, rest)
  | s => (1, s)

/-- Model of Go `strconv.ParseInt(s, 10, 64)`: optional sign followed
by a non-empty run of decimal digits.  (The 64-bit range clamp is not
modelled; NMEA fields are far below it.) -/
def goParseInt (s : Str) : Option Int :=
  let (sign, ds) := splitSign s
  if ds ≠ [] && ds.all isDigit then some (sign * digitsVal ds) else none

/-- Model of Go `strconv.ParseInt(s, 16, 64)`: optional sign followed
by a non-empty run of hexadecimal digits of either case. -/
def goParseHex (s : Str) : Option Int :=
  let (sign, ds) := splitSign s
  if ds ≠ [] && ds.all isHexDigit then some (sign * hexDigitsVal ds) else none

/-- Model of Go `strconv.ParseFloat(s, 64)` on the decimal literals
NMEA fields carry: optional sign, then digits with at most one decimal
point and at least one digit overall.  The value is exact (`Frac`). -/
def goParseFloat (s : Str) : Option Frac :=
  let (sign, ds) := splitSign s
  let intPart := ds.takeWhile (fun c => c ≠ '.')
  let rest := ds.dropWhile (fun c => c ≠ '.')
  if intPart.all isDigit then
    match rest with
    | [] =>
        if intPart ≠ [] then some ⟨sign * digitsVal intPart, 1⟩ else none
    | '.' :: fracPart =>
        if fracPart.all isDigit && (intPart ≠ [] || fracPart ≠ []) then
          some ⟨sign * (digitsVal intPart * 10 ^ fracPart.length + digitsVal fracPart),
                10 ^ fracPart.length⟩
        else none
    | _ => none
  else none

example : goParseFloat "003.1".toList = some ⟨31, 10⟩ := by decide
example : goParseFloat "x".toList = none := by decide
example : goParseFloat "".toList = none := by decide
example : goParseFloat "-1.5".toList = some ⟨-15, 10⟩ := by decide
example : goParseInt "14".toList = some 14 := by decide
example : goParseHex "5E".toList = some 94 := by decide

/-- A parsed UTC time of day, as produced by Go `time.Parse` with the
layouts `"150405 UTC"` / `"150405.99 ..."`.  The fractional second is
kept exactly. -/
structure Clock where
  hour : Nat
  minute : Nat
  second : Nat
  frac : Frac
  deriving DecidableEq, Repr

/-- Model of Go `time.Parse` on the `150405` clock layouts: exactly
six digits `HHMMSS` with in-range fields, optionally followed by a
fractional-second part `.d...d` (Go's parser accepts a fractional
second after the seconds even when the layout omits it). -/
def parseClock (s : Str) : Option Clock :=
  match s with
  | h1 :: h2 :: m1 :: m2 :: s1 :: s2 :: rest =>
    if [h1, h2, m1, m2, s1, s2].all isDigit then
      let hh := digitVal h1 * 10 + digitVal h2
      let mm := digitVal m1 * 10 + digitVal m2
      let ss := digitVal s1 * 10 + digitVal s2
      if hh ≤ 23 && mm ≤ 59 && ss ≤ 59 then
        match rest with
        | [] => some ⟨hh, mm, ss, Frac.zero⟩
        | '.' :: ds =>
            if ds ≠ [] && ds.all isDigit then
              some ⟨hh, mm, ss, ⟨digitsVal ds, 10 ^ ds.length⟩⟩
            else none
        | _ => none
      else none
    else none
  | _ => none

/-- A parsed `DDMMYY` date, as produced by Go `time.Parse` with the
`020106` layout (two-digit years 69–99 are 19xx, 00–68 are 20xx). -/
structure CalDate where
  day : Nat
  month : Nat
  year : Nat
  deriving DecidableEq, Repr

/-- Day count of a month in the given (full) year, with the Gregorian
leap rule, mirroring `time.Parse`'s day-of-month validation. -/
def daysInMonth (month year : Nat) : Nat :=
  if month = 2 then
    if year % 4 = 0 && (year % 100 ≠ 0 || year % 400 = 0) then 29 else 28
  else if month = 4 || month = 6 || month = 9 || month = 11 then 30
  else 31

/-- Model of Go `time.Parse` on the `020106` date layout: exactly six
digits `DDMMYY` with a valid month and a day valid for that month. -/
def parseDate (s : Str) : Option CalDate :=
  match s with
  | d1 :: d2 :: m1 :: m2 :: y1 :: y2 :: [] =>
    if [d1, d2, m1, m2, y1, y2].all isDigit then
      let dd := digitVal d1 * 10 + digitVal d2
      let mm := digitVal m1 * 10 + digitVal m2
      let yy := digitVal y1 * 10 + digitVal y2
      let year := if 69 ≤ yy then 1900 + yy else 2000 + yy
      if 1 ≤ mm && mm ≤ 12 && 1 ≤ dd && dd ≤ daysInMonth mm year then
        some ⟨dd, mm, year⟩
      else none
    else none
  | _ => none

/-- The errors the decoders produce.  Payloads keep enough of the Go
error values (`strconv` errors carry the offending literal, the
`fmt.Errorf` shape errors carry the raw fields) to distinguish
distinct failures. -/
inductive Err where
  /-- `errBadChecksum` -/
  | badChecksum
  /-- a `time.Parse` failure, carrying the value string -/
  | badTime (value : Str)
  /-- a `strconv.ParseFloat` failure, carrying the literal -/
  | floatSyntax (s : Str)
  /-- a `strconv.ParseInt` failure, carrying the literal -/
  | intSyntax (s : Str)
  /-- an `Unexpected <kind> packet` shape error, carrying the fields -/
  | badPacket (kind : Str) (parts : List Str)
  /-- an error injected by a test or by the underlying reader -/
  | other (tag : Str)
  deriving DecidableEq, Repr

/-- `type cumulativeErrorParser struct { err error }` — the
deferred-error state threaded through one record's field decodes. -/
structure cumulativeErrorParser where
  err : Option Err
  deriving DecidableEq, Repr

/-- The fresh `&cumulativeErrorParser{}` each decoder allocates. -/
def cpNew : cumulativeErrorParser := ⟨none⟩

/-- `func (c *cumulativeErrorParser) parseFloat(s string) float64` —
empty fields yield zero untouched; malformed fields yield zero and
overwrite the retained error. -/
def cumulativeErrorParser.parseFloat (c : cumulativeErrorParser) (s : Str) :
    Frac × cumulativeErrorParser :=
  if s = [] then (Frac.zero, c)
  else
    match goParseFloat s with
    | some v => (v, c)
    | none => (Frac.zero, ⟨some (Err.floatSyntax s)⟩)

/-- `func (c *cumulativeErrorParser) parseInt(s string) int` — same
deferred-error discipline for integer fields. -/
def cumulativeErrorParser.parseInt (c : cumulativeErrorParser) (s : Str) :
    Int × cumulativeErrorParser :=
  if s = [] then (0, c)
  else
    match goParseInt s with
    | some v => (v, c)
    | none => (0, ⟨some (Err.intSyntax s)⟩)

/-- `func (c *cumulativeErrorParser) parseDMS(s, ref string) float64`
— degrees-plus-decimal-minutes with hemisphere marker: a 2-character
degree part for `N`/`S`, 3 for `E`/`W`, minutes divided by 60, and
negation for `S`/`W`. -/
def cumulativeErrorParser.parseDMS (c : cumulativeErrorParser) (s ref : Str) :
    Frac × cumulativeErrorParser :=
  let n : Nat := if ref = "E".toList || ref = "W".toList then 3 else 2
  let neg : Bool := ref = "S".toList || ref = "W".toList
  let dp := c.parseFloat (s.take n)
  let mp := dp.2.parseFloat (s.drop n)
  let v := dp.1.add (mp.1.divNat 60)
  (if neg then v.neg else v, mp.2)

example : (cpNew.parseDMS "3723.02837".toList "S".toList).1 =
    ⟨-(37 * 6000000 + 2302837), 6000000⟩ := by decide
example : (cpNew.parseDMS "3723.02837".toList "S".toList).2.err = none := by decide
example : parseClock "162254.00".toList =
    some ⟨16, 22, 54, ⟨0, 100⟩⟩ := by decide
example : parseClock "262254.00".toList = none := by decide
example : parseClock "999999".toList = none := by decide
example : parseDate "110706".toList = some ⟨11, 7, 2006⟩ := by decide
example : parseDate "230394".toList = some ⟨23, 3, 1994⟩ := by decide

/-- `RMC` record (recommended minimum data); the `time.Time` built
from fields 1 and 9 is modelled as the parsed clock and date. -/
structure RMC where
  clock : Clock
  date : CalDate
  Status : Char
  Latitude : Frac
  Longitude : Frac
  Speed : Frac
  Angle : Frac
  Magvar : Frac
  deriving DecidableEq, Repr

/-- `VTG` record (velocity made good). -/
structure VTG where
  TrueTrack : Frac
  Magnetic : Frac
  Knots : Frac
  KMH : Frac
  deriving DecidableEq, Repr

/-- `GGA` record (fix information); `FixQuality` is its integer code. -/
structure GGA where
  Taken : Clock
  Latitude : Frac
  Longitude : Frac
  Quality : Int
  NumSats : Int
  HorizontalDilution : Frac
  Altitude : Frac
  GeoidHeight : Frac
  deriving DecidableEq, Repr

/-- `GSA` record (overall satellite data); `GSAFix` is its code. -/
structure GSA where
  Auto : Bool
  Fix : Int
  SatsUsed : List Int
  PDOP : Frac
  HDOP : Frac
  VDOP : Frac
  deriving DecidableEq, Repr

/-- `GLL` record (geographic position). -/
structure GLL where
  Latitude : Frac
  Longitude : Frac
  Taken : Clock
  Active : Bool
  deriving DecidableEq, Repr

/-- `ZDA` record; the `time.Date(...)` call is modelled by its
arguments (with nanoseconds the truncated scaled fraction, and the
fixed-zone offset in seconds, `none` meaning UTC). -/
structure ZDA where
  year : Int
  month : Int
  day : Int
  hour : Int
  minute : Int
  second : Int
  nsec : Int
  zoneOffset : Option Int
  deriving DecidableEq, Repr

/-- One satellite entry of a `GSV` record. -/
structure GSVSatInfo where
  PRN : Int
  Elevation : Int
  Azimuth : Int
  SNR : Int
  deriving DecidableEq, Repr

/-- `GSV` record (satellites in view, one fragment). -/
structure GSV where
  InView : Int
  SentenceNum : Int
  TotalSentences : Int
  SatInfo : List GSVSatInfo
  deriving DecidableEq, Repr

/-- `AAM` record (arrival alarm). -/
structure AAM where
  Arrival : Bool
  Perpendicular : Bool
  Radius : Frac
  deriving DecidableEq, Repr

/-- `GST` record (pseudorange noise statistics). -/
structure GST where
  Timestamp : Clock
  Deviation : Frac
  MajorDeviceation : Frac
  MinorDeviation : Frac
  MajorOrientation : Frac
  MinorOrientation : Frac
  LatitudeErrDeviation : Frac
  LongitudeErrDeviation : Frac
  deriving DecidableEq, Repr

/-- A handler invocation: the record handed to the consumer.  The
decoders return the list of invocations they perform (decoding's only
observable side effect). -/
inductive Event where
  | rmc (r : RMC)
  | vtg (r : VTG)
  | gga (r : GGA)
  | gsa (r : GSA)
  | gll (r : GLL)
  | zda (r : ZDA)
  | gsv (r : GSV)
  | aam (r : AAM)
  | gst (r : GST)
  deriving DecidableEq, Repr

/-- The consumer's capability set: which `<Kind>Handler` interfaces
the handler object passed to the decoders implements. -/
structure Caps where
  rmc : Bool
  vtg : Bool
  gga : Bool
  gsa : Bool
  gll : Bool
  zda : Bool
  gsv : Bool
  aam : Bool
  gst : Bool
  deriving DecidableEq, Repr

/-- A consumer implementing every handler interface. -/
def allCaps : Caps := ⟨true, true, true, true, true, true, true, true, true⟩

/-- `func rmcParser(parts []string, handler interface{}) error`. -/
def rmcParser (parts : List Str) (caps : Caps) : List Event × Option Err :=
  if !caps.rmc then ([], none)
  else
    match parseClock (parts.getD 1 []), parseDate (parts.getD 9 []) with
    | some clk, some date =>
      let lat := cpNew.parseDMS (parts.getD 3 []) (parts.getD 4 [])
      let lon := lat.2.parseDMS (parts.getD 5 []) (parts.getD 6 [])
      let speed := lon.2.parseFloat (parts.getD 7 [])
      let angle := speed.2.parseFloat (parts.getD 8 [])
      let magvar :=
        if parts.getD 10 [] ≠ [] then
          let m := angle.2.parseFloat (parts.getD 10 [])
          (if parts.getD 11 [] = "W".toList then m.1.neg else m.1, m.2)
        else (Frac.zero, angle.2)
      if magvar.2.err ≠ none then ([], magvar.2.err)
      else
        ([Event.rmc ⟨clk, date, (parts.getD 2 []).headD ' ',
                     lat.1, lon.1, speed.1, angle.1, magvar.1⟩], none)
    | _, _ => ([], some (Err.badTime (parts.getD 1 [] ++ ' ' :: parts.getD 9 [])))

/-- `func vtgParser(parts []string, handler interface{}) error`. -/
def vtgParser (parts : List Str) (caps : Caps) : List Event × Option Err :=
  if !caps.vtg then ([], none)
  else if parts.getD 2 [] ≠ "T".toList || parts.getD 4 [] ≠ "M".toList
      || parts.getD 6 [] ≠ "N".toList || parts.getD 8 [] ≠ "K".toList then
    ([], some (Err.badPacket "VTG".toList parts))
  else
    let tv := cpNew.parseFloat (parts.getD 1 [])
    let mv := tv.2.parseFloat (parts.getD 3 [])
    let kn := mv.2.parseFloat (parts.getD 5 [])
    let km := kn.2.parseFloat (parts.getD 7 [])
    if km.2.err ≠ none then ([], km.2.err)
    else ([Event.vtg ⟨tv.1, mv.1, kn.1, km.1⟩], none)

/-- `func ggaParser(parts []string, handler interface{}) error`.
Note: the handler is invoked before the deferred error is returned. -/
def ggaParser (parts : List Str) (caps : Caps) : List Event × Option Err :=
  if !caps.gga then ([], none)
  else if parts.length < 13 || parts.getD 10 [] ≠ "M".toList
      || parts.getD 12 [] ≠ "M".toList then
    ([], some (Err.badPacket "GGA".toList parts))
  else
    match parseClock (parts.getD 1 []) with
    | none => ([], some (Err.badTime (parts.getD 1 [])))
    | some clk =>
      let lat := cpNew.parseDMS (parts.getD 2 []) (parts.getD 3 [])
      let lon := lat.2.parseDMS (parts.getD 4 []) (parts.getD 5 [])
      let quality := lon.2.parseInt (parts.getD 6 [])
      let hd := quality.2.parseFloat (parts.getD 8 [])
      let ns := hd.2.parseInt (parts.getD 7 [])
      let alt := ns.2.parseFloat (parts.getD 9 [])
      let gh := alt.2.parseFloat (parts.getD 11 [])
      ([Event.gga ⟨clk, lat.1, lon.1, quality.1, ns.1, hd.1, alt.1, gh.1⟩], gh.2.err)

/-- The `for _, s := range parts[3:15]` loop of `gsaParser`: non-empty
PRN slots are parsed and collected, empty slots are skipped. -/
def gsaSats (c : cumulativeErrorParser) : List Str → List Int × cumulativeErrorParser
  | [] => ([], c)
  | s :: rest =>
    if s ≠ [] then
      let v := c.parseInt s
      let vs := gsaSats v.2 rest
      (v.1 :: vs.1, vs.2)
    else gsaSats c rest

/-- `func gsaParser(parts []string, handler interface{}) error`.
Note: the handler is invoked before the deferred error is returned. -/
def gsaParser (parts : List Str) (caps : Caps) : List Event × Option Err :=
  if !caps.gsa then ([], none)
  else if parts.length ≠ 18 then
    ([], some (Err.badPacket "GSA".toList parts))
  else
    let sats := gsaSats cpNew ((parts.drop 3).take 12)
    let fix := sats.2.parseInt (parts.getD 2 [])
    let pd := fix.2.parseFloat (parts.getD 15 [])
    let hd := pd.2.parseFloat (parts.getD 16 [])
    let vd := hd.2.parseFloat (parts.getD 17 [])
    ([Event.gsa ⟨parts.getD 1 [] = "A".toList, fix.1, sats.1, pd.1, hd.1, vd.1⟩],
     vd.2.err)

/-- `func gllParser(parts []string, handler interface{}) error`.
Note: the deferred error is discarded (`return nil`), so the handler
is invoked and no failure is reported even when a field is malformed. -/
def gllParser (parts : List Str) (caps : Caps) : List Event × Option Err :=
  if !caps.gll then ([], none)
  else
    match parseClock (parts.getD 5 []) with
    | none => ([], some (Err.badTime (parts.getD 5 [])))
    | some clk =>
      let lat := cpNew.parseDMS (parts.getD 1 []) (parts.getD 2 [])
      let lon := lat.2.parseDMS (parts.getD 3 []) (parts.getD 4 [])
      ([Event.gll ⟨lat.1, lon.1, clk, parts.getD 6 [] = "A".toList⟩], none)

/-- `func zdaParser(parts []string, handler interface{}) error`.
`time.Date` never fails; the handler is invoked before the deferred
error is returned. -/
def zdaParser (parts : List Str) (caps : Caps) : List Event × Option Err :=
  if !caps.zda then ([], none)
  else if parts.length ≠ 7 || (parts.getD 1 []).length < 6 then
    ([], some (Err.badPacket "ZDA".toList parts))
  else
    let p1 := parts.getD 1 []
    let tzh := cpNew.parseInt (parts.getD 5 [])
    let tzm := tzh.2.parseInt (parts.getD 6 [])
    let zone : Option Int :=
      if tzh.1 ≠ 0 || tzm.1 ≠ 0 then some (tzh.1 * 3600 + tzm.1 * 60) else none
    let year := tzm.2.parseInt (parts.getD 4 [])
    let mon := year.2.parseInt (parts.getD 3 [])
    let day := mon.2.parseInt (parts.getD 2 [])
    let hh := day.2.parseInt (p1.take 2)
    let mm := hh.2.parseInt ((p1.drop 2).take 2)
    let ss := mm.2.parseInt ((p1.drop 4).take 2)
    let fr := ss.2.parseFloat (p1.drop 6)
    ([Event.zda ⟨year.1, mon.1, day.1, hh.1, mm.1, ss.1,
                 Int.tdiv (fr.1.num * 1000000000) fr.1.den, zone⟩], fr.2.err)

/-- The `for i := 4; i+4 <= len(parts); i += 4` loop of `gsvParser`:
complete groups of four fields become satellite entries; a trailing
incomplete group is dropped. -/
def gsvSats (c : cumulativeErrorParser) : List Str → List GSVSatInfo × cumulativeErrorParser
  | p0 :: p1 :: p2 :: p3 :: rest =>
    let a := c.parseInt p0
    let b := a.2.parseInt p1
    let d := b.2.parseInt p2
    let e := d.2.parseInt p3
    let vs := gsvSats e.2 rest
    (⟨a.1, b.1, d.1, e.1⟩ :: vs.1, vs.2)
  | _ => ([], c)

/-- `func gsvParser(parts []string, handler interface{}) error`.
Note: the handler is invoked before the deferred error is returned. -/
def gsvParser (parts : List Str) (caps : Caps) : List Event × Option Err :=
  if !caps.gsv then ([], none)
  else
    let inv := cpNew.parseInt (parts.getD 3 [])
    let snum := inv.2.parseInt (parts.getD 2 [])
    let total := snum.2.parseInt (parts.getD 1 [])
    let sats := gsvSats total.2 (parts.drop 4)
    ([Event.gsv ⟨inv.1, snum.1, total.1, sats.1⟩], sats.2.err)

/-- `func aamParser(parts []string, handler interface{}) error`.
Note: the handler is invoked before the deferred error is returned. -/
def aamParser (parts : List Str) (caps : Caps) : List Event × Option Err :=
  if !caps.aam then ([], none)
  else
    let r := cpNew.parseFloat (parts.getD 3 [])
    ([Event.aam ⟨parts.getD 1 [] = "A".toList,
                 parts.getD 2 [] = "A".toList, r.1⟩], r.2.err)

/-- `func gstParser(parts []string, handler interface{}) error`.
Note: the handler is invoked before the deferred error is returned. -/
def gstParser (parts : List Str) (caps : Caps) : List Event × Option Err :=
  if !caps.gst then ([], none)
  else
    match parseClock ((parts.getD 1 []).take 6) with
    | none => ([], some (Err.badTime ((parts.getD 1 []).take 6)))
    | some clk =>
      let dv := cpNew.parseFloat (parts.getD 2 [])
      let maj := dv.2.parseFloat (parts.getD 3 [])
      let mino := maj.2.parseFloat (parts.getD 4 [])
      let majo := mino.2.parseFloat (parts.getD 5 [])
      let mio := majo.2.parseFloat (parts.getD 6 [])
      let lad := mio.2.parseFloat (parts.getD 7 [])
      let lod := lad.2.parseFloat (parts.getD 8 [])
      ([Event.gst ⟨clk, dv.1, maj.1, mino.1, majo.1, mio.1, lad.1, lod.1⟩],
       lod.2.err)

/-- `type GSVAccumulator struct` — the multi-fragment satellite-view
reassembler. -/
structure GSVAccumulator where
  InView : Int
  Parts : Int
  prev : Int
  SatInfo : List GSVSatInfo
  deriving DecidableEq, Repr

/-- The zero `GSVAccumulator{}`. -/
def gsvAccNew : GSVAccumulator := ⟨0, 0, 0, []⟩

/-- `func (g *GSVAccumulator) Add(a GSV) bool` — the pointer update is
modelled by returning the new state with the Boolean result. -/
def GSVAccumulator.Add (g : GSVAccumulator) (a : GSV) : GSVAccumulator × Bool :=
  if a.TotalSentences ≠ g.Parts || a.SentenceNum ≠ g.prev + 1 then
    let g1 : GSVAccumulator :=
      { InView := a.InView, Parts := a.TotalSentences,
        prev := a.SentenceNum, SatInfo := a.SatInfo }
    let g2 := if a.SentenceNum ≠ 1 then { g1 with prev := 0, SatInfo := [] } else g1
    (g2, a.TotalSentences == 1)
  else
    ({ g with prev := a.SentenceNum, SatInfo := g.SatInfo ++ a.SatInfo },
     a.SentenceNum == g.Parts)

/-- The checksum loop of `checkChecksum`: running XOR of the
characters, stopping at the first `*`. -/
def checksumLoop (cs : Nat) : Str → Nat
  | [] => cs
  | c :: rest => if c = '*' then cs else checksumLoop (cs ^^^ c.toNat) rest

/-- `func checkChecksum(line string) bool`. -/
def checkChecksum (line : Str) : Bool :=
  if line.length < 4 then false
  else if line.headD ' ' ≠ '$' then false
  else if line.getD (line.length - 3) ' ' ≠ '*' then false
  else
    match goParseHex (line.drop (line.length - 2)) with
    | none => false
    | some exp => Int.ofNat (checksumLoop 0 (line.drop 1)) == exp

/-- The `parsers` sentence registry: tag to decoder. -/
def parsersFor (tag : Str) : Option (List Str → Caps → List Event × Option Err) :=
  if tag = "$GPRMC".toList then some rmcParser
  else if tag = "$GPVTG".toList then some vtgParser
  else if tag = "$GPGGA".toList then some ggaParser
  else if tag = "$GPGSA".toList then some gsaParser
  else if tag = "$GPGLL".toList then some gllParser
  else if tag = "$GPZDA".toList then some zdaParser
  else if tag = "$GPGSV".toList then some gsvParser
  else if tag = "$GPAAM".toList then some aamParser
  else if tag = "$GPGST".toList then some gstParser
  else none

/-- `func parseMessage(line string, handler interface{}) error`. -/
def parseMessage (line : Str) (caps : Caps) : List Event × Option Err :=
  if !checkChecksum line then ([], some Err.badChecksum)
  else
    let parts := List.splitOn ',' (line.take (line.length - 3))
    match parsersFor (parts.headD []) with
    | some p => p parts caps
    | none => ([], none)

/-- `func defaultErrorHandler(err error) error` — always continues. -/
def defaultErrorHandler (_ : Err) : Option Err := none

/-- The scan loop of `Process`: decodes each line, feeding failures to
the error policy; returns the handler invocations, the failures handed
to the policy, and the value `Process` returns (`none` is Go `nil`).
The reader is a list of lines followed by an optional read error
(`bufio.Scanner`'s `s.Err()`). -/
def processLines (errh : Err → Option Err) (caps : Caps) (ioErr : Option Err) :
    List Str → List Event × List Err × Option Err
  | [] => ([], [], ioErr)
  | l :: rest =>
    let dec := parseMessage l caps
    match dec.2 with
    | none =>
      let next := processLines errh caps ioErr rest
      (dec.1 ++ next.1, next.2.1, next.2.2)
    | some e =>
      match errh e with
      | some abort => (dec.1, [e], some abort)
      | none =>
        let next := processLines errh caps ioErr rest
        (dec.1 ++ next.1, e :: next.2.1, next.2.2)

/-- `func Process(r io.Reader, handler interface{}, errh ErrorHandler) error`
— `errh = none` models passing a `nil` handler, replaced by the
default one. -/
def Process (lines : List Str) (ioErr : Option Err) (caps : Caps)
    (errh : Option (Err → Option Err)) : List Event × List Err × Option Err :=
  processLines (errh.getD defaultErrorHandler) caps ioErr lines

/-- Modelled from the spec: the stream driver's error policy as the
current library defines it (`ErrorHandler func(string, error) error`,
exercised by the tests and command-line callers in the repository) is
"passed, together with the offending raw line, to a caller-supplied
error policy function"; the `Process` in `src` is an older revision
whose policy takes only the error.  Identical to `processLines` except
that the policy receives the offending raw line as well. -/
def processSpecLines (errh : Str → Err → Option Err) (caps : Caps) (ioErr : Option Err) :
    List Str → List Event × List (Str × Err) × Option Err
  | [] => ([], [], ioErr)
  | l :: rest =>
    let dec := parseMessage l caps
    match dec.2 with
    | none =>
      let next := processSpecLines errh caps ioErr rest
      (dec.1 ++ next.1, next.2.1, next.2.2)
    | some e =>
      match errh l e with
      | some abort => (dec.1, [(l, e)], some abort)
      | none =>
        let next := processSpecLines errh caps ioErr rest
        (dec.1 ++ next.1, (l, e) :: next.2.1, next.2.2)

/-- Modelled from the spec: the driver entry point over the
line-plus-error policy; `errh = none` models the optional policy being
absent, in which case "the default policy always continues". -/
def ProcessSpec (lines : List Str) (ioErr : Option Err) (caps : Caps)
    (errh : Option (Str → Err → Option Err)) :
    List Event × List (Str × Err) × Option Err :=
  processSpecLines (errh.getD fun _ _ => none) caps ioErr lines

example : parseMessage "$GPXTE*5E".toList allCaps = ([], none) := by decide
example : checkChecksum "$*00".toList = true := by decide
example : checkChecksum "$*01".toList = false := by decide
example : checkChecksum "$0*0".toList = false := by decide

/-- Shared helper: the continue branch of `GSVAccumulator.Add`. -/
theorem GSVAccumulator.Add_continue (g : GSVAccumulator) (a : GSV)
    (h1 : a.TotalSentences = g.Parts) (h2 : a.SentenceNum = g.prev + 1) :
    g.Add a = ({ g with prev := a.SentenceNum, SatInfo := g.SatInfo ++ a.SatInfo },
               a.SentenceNum == g.Parts) := by
  simp [GSVAccumulator.Add, h1, h2]

/-- Shared helper: the resynchronization branch of `GSVAccumulator.Add`. -/
theorem GSVAccumulator.Add_resync (g : GSVAccumulator) (a : GSV)
    (h : a.TotalSentences ≠ g.Parts ∨ a.SentenceNum ≠ g.prev + 1) :
    g.Add a = ((if a.SentenceNum ≠ 1 then ⟨a.InView, a.TotalSentences, 0, []⟩
                else ⟨a.InView, a.TotalSentences, a.SentenceNum, a.SatInfo⟩ :
                GSVAccumulator),
               a.TotalSentences == 1) := by
  have hc : (decide ¬a.TotalSentences = g.Parts ||
      decide ¬a.SentenceNum = g.prev + 1) = true := by
    rcases h with h | h <;> simp [h]
  unfold GSVAccumulator.Add
  rw [if_pos (by simpa using hc)]

/-- **C2**: when a fragment's total differs from the tracked total or
its index does not continue the sequence, `GSVAccumulator.Add`
resynchronizes — it adopts the fragment's in-view count, total, index
and satellite list, except that a fragment whose index is not 1 has
the index reset to 0 and the satellite list to empty — and returns
`true` iff the fragment's total is 1. -/
theorem gsvAdd_resync_spec (g : GSVAccumulator) (a : GSV)
    (h : a.TotalSentences ≠ g.Parts ∨ a.SentenceNum ≠ g.prev + 1) :
    ((g.Add a).1 = if a.SentenceNum ≠ 1 then ⟨a.InView, a.TotalSentences, 0, []⟩
                   else ⟨a.InView, a.TotalSentences, a.SentenceNum, a.SatInfo⟩) ∧
    ((g.Add a).2 = true ↔ a.TotalSentences = 1) := by
  rw [GSVAccumulator.Add_resync g a h]
  constructor
  · by_cases h1 : a.SentenceNum = 1 <;> simp [h1]
  · simp

/-- Witness for C2: a mid-sequence fragment (index 2 of 4) arriving at
the fresh accumulator resynchronizes to an empty baseline and does not
complete. -/
theorem gsvAdd_resync_spec_witness :
    ((gsvAccNew.Add ⟨14, 2, 4, [⟨18, 16, 79, 0⟩]⟩).1 =
       ⟨14, 4, 0, []⟩ ∧
     ((gsvAccNew.Add ⟨14, 2, 4, [⟨18, 16, 79, 0⟩]⟩).2 = true ↔ (4 : Int) = 1)) := by
  have h := gsvAdd_resync_spec gsvAccNew ⟨14, 2, 4, [⟨18, 16, 79, 0⟩]⟩
    (by left; decide)
  simpa using h

/-- Fragment 1 of the 4-fragment, 14-satellite test sequence. -/
def frag1Sats : List GSVSatInfo :=
  [⟨25, 15, 175, 30⟩, ⟨14, 80, 41, 0⟩, ⟨19, 38, 259, 14⟩, ⟨1, 52, 233, 18⟩]

/-- Fragment 2 of the test sequence. -/
def frag2Sats : List GSVSatInfo :=
  [⟨18, 16, 79, 0⟩, ⟨11, 19, 312, 0⟩, ⟨14, 80, 41, 0⟩, ⟨21, 4, 135, 25⟩]

/-- Fragment 3 of the test sequence. -/
def frag3Sats : List GSVSatInfo :=
  [⟨15, 27, 134, 18⟩, ⟨3, 25, 222, 0⟩, ⟨22, 51, 57, 16⟩, ⟨9, 7, 36, 0⟩]

/-- Fragment 4 of the test sequence (two entries). -/
def frag4Sats : List GSVSatInfo :=
  [⟨7, 1, 181, 0⟩, ⟨15, 25, 135, 0⟩]

/-- A fragment of the 4-fragment, 14-in-view sequence. -/
def gsvFrag (n : Int) (sats : List GSVSatInfo) : GSV := ⟨14, n, 4, sats⟩

/-- Feeds fragments to the accumulator in order, collecting the
Boolean results. -/
def gsvFeed : GSVAccumulator → List GSV → GSVAccumulator × List Bool
  | g, [] => (g, [])
  | g, a :: rest =>
    let r := g.Add a
    let next := gsvFeed r.1 rest
    (next.1, r.2 :: next.2)

/-- **C3 (amended)**: in the continue case `GSVAccumulator.Add`
appends the fragment's entries, advances the last-merged index to the
fragment's index, and returns `true` iff that index equals the tracked
total; feeding fragments 2, 1, 3 of a 4-fragment 14-satellite sequence
out of order (fragments 2 and 3 resynchronizing, while fragment 1
continues the baseline that fragment 2's resynchronization reset, with
the same observable effect) and then 1, 2, 3, 4 in order returns
`true` only on the final in-order fragment, with the accumulated list
the in-order concatenation of the four fragments' entries, of
length 14. -/
theorem gsvAdd_continue_and_scenario :
    (∀ (g : GSVAccumulator) (a : GSV),
      a.TotalSentences = g.Parts → a.SentenceNum = g.prev + 1 →
      (g.Add a).1 = { g with prev := a.SentenceNum,
                             SatInfo := g.SatInfo ++ a.SatInfo } ∧
      ((g.Add a).2 = true ↔ a.SentenceNum = g.Parts)) ∧
    (gsvFeed gsvAccNew
      [gsvFrag 2 frag2Sats, gsvFrag 1 frag1Sats, gsvFrag 3 frag3Sats,
       gsvFrag 1 frag1Sats, gsvFrag 2 frag2Sats, gsvFrag 3 frag3Sats,
       gsvFrag 4 frag4Sats]).2 =
      [false, false, false, false, false, false, true] ∧
    (gsvFeed gsvAccNew
      [gsvFrag 2 frag2Sats, gsvFrag 1 frag1Sats, gsvFrag 3 frag3Sats,
       gsvFrag 1 frag1Sats, gsvFrag 2 frag2Sats, gsvFrag 3 frag3Sats,
       gsvFrag 4 frag4Sats]).1.SatInfo =
      frag1Sats ++ frag2Sats ++ frag3Sats ++ frag4Sats ∧
    (frag1Sats ++ frag2Sats ++ frag3Sats ++ frag4Sats).length = 14 ∧
    (gsvFrag 2 frag2Sats).SentenceNum ≠ gsvAccNew.prev + 1 ∧
    (gsvFrag 3 frag3Sats).SentenceNum ≠
      (gsvFeed gsvAccNew [gsvFrag 2 frag2Sats, gsvFrag 1 frag1Sats]).1.prev + 1 := by
  refine ⟨fun g a h1 h2 => ?_, by decide, by decide, by decide, by decide, by decide⟩
  rw [GSVAccumulator.Add_continue g a h1 h2]
  simp [h1, h2]

/-- Witness for C3: fragment 1 of 4 fed to an accumulator freshly
resynchronized to total 4 continues the sequence without completing. -/
theorem gsvAdd_continue_and_scenario_witness :
    ((⟨14, 4, 0, []⟩ : GSVAccumulator).Add (gsvFrag 1 frag1Sats)).1 =
      ⟨14, 4, 1, frag1Sats⟩ ∧
    (((⟨14, 4, 0, []⟩ : GSVAccumulator).Add (gsvFrag 1 frag1Sats)).2 = true ↔
      (1 : Int) = 4) := by
  have h := gsvAdd_continue_and_scenario.1 (⟨14, 4, 0, []⟩ : GSVAccumulator)
    (gsvFrag 1 frag1Sats) (by decide) (by decide)
  simpa [gsvFrag] using h

/-- Counterexample to C3 as stated: the claim has fragments 2, 1, 3
"each resynchronizing", but after fragment 2's resynchronization has
reset the last-merged index to 0, fragment 1 satisfies the continue
condition (its total matches and its index is exactly `prev + 1`), so
it does not resynchronize — it takes the append branch. -/
theorem gsv_scenario_claim_counterexample :
    (gsvFrag 1 frag1Sats).TotalSentences =
      (gsvAccNew.Add (gsvFrag 2 frag2Sats)).1.Parts ∧
    (gsvFrag 1 frag1Sats).SentenceNum =
      (gsvAccNew.Add (gsvFrag 2 frag2Sats)).1.prev + 1 ∧
    ((gsvAccNew.Add (gsvFrag 2 frag2Sats)).1.Add (gsvFrag 1 frag1Sats)).1 =
      ⟨14, 4, 1, (gsvAccNew.Add (gsvFrag 2 frag2Sats)).1.SatInfo ++ frag1Sats⟩ := by
  decide

/-- **C10**: the continue transition leaves `Parts` and `InView`
unchanged — only `prev` and `SatInfo` are updated — so a fragment
whose in-view count differs mid-sequence does not change the
accumulator's reported in-view count. -/
theorem gsvAdd_continue_preserves_frame (g : GSVAccumulator) (a : GSV)
    (h1 : a.TotalSentences = g.Parts) (h2 : a.SentenceNum = g.prev + 1) :
    (g.Add a).1.Parts = g.Parts ∧ (g.Add a).1.InView = g.InView ∧
    (g.Add a).1 = { g with prev := a.SentenceNum,
                           SatInfo := g.SatInfo ++ a.SatInfo } := by
  rw [GSVAccumulator.Add_continue g a h1 h2]
  simp

/-- Witness for C10: a continuing fragment reporting 99 in view does
not change the accumulator's in-view count of 14. -/
theorem gsvAdd_continue_preserves_frame_witness :
    ((⟨14, 4, 1, frag1Sats⟩ : GSVAccumulator).Add ⟨99, 2, 4, frag2Sats⟩).1.Parts = 4 ∧
    ((⟨14, 4, 1, frag1Sats⟩ : GSVAccumulator).Add ⟨99, 2, 4, frag2Sats⟩).1.InView = 14 ∧
    ((⟨14, 4, 1, frag1Sats⟩ : GSVAccumulator).Add ⟨99, 2, 4, frag2Sats⟩).1 =
      ⟨14, 4, 2, frag1Sats ++ frag2Sats⟩ := by
  have h := gsvAdd_continue_preserves_frame (⟨14, 4, 1, frag1Sats⟩ : GSVAccumulator)
    ⟨99, 2, 4, frag2Sats⟩ (by decide) (by decide)
  simpa using h

/-- The checksum contract exactly as the claim words it: length at
least 4, leading `$`, `*` as third-from-last character, hex trailer,
and the exclusive-or of every byte strictly between the leading `$`
and the terminating `*` (the third-from-last character) equal to the
trailer.  Stated from the claim for comparison with `checkChecksum`. -/
def claimChecksumValid (line : Str) : Bool :=
  decide (4 ≤ line.length) && decide (line.headD ' ' = '$') &&
  decide (line.getD (line.length - 3) ' ' = '*') &&
  match goParseHex (line.drop (line.length - 2)) with
  | some n =>
      decide (Int.ofNat (((line.take (line.length - 3)).drop 1).foldl
          (fun a c => a ^^^ c.toNat) 0) = n)
  | none => false

/-- The checksum contract with the span the code actually uses: the
running exclusive-or covers the bytes strictly between the leading `$`
and the **first** `*`. -/
def amendedChecksumValid (line : Str) : Bool :=
  decide (4 ≤ line.length) && decide (line.headD ' ' = '$') &&
  decide (line.getD (line.length - 3) ' ' = '*') &&
  match goParseHex (line.drop (line.length - 2)) with
  | some n =>
      decide (Int.ofNat (((line.drop 1).takeWhile fun c => c ≠ '*').foldl
          (fun a c => a ^^^ c.toNat) 0) = n)
  | none => false

/-- Shared helper: the checksum loop is the XOR fold over the
characters before the first `*`. -/
theorem checksumLoop_eq_foldl (s : Str) : ∀ cs : Nat,
    checksumLoop cs s =
      ((s.takeWhile fun c => c ≠ '*').foldl (fun a c => a ^^^ c.toNat) cs) := by
  induction s with
  | nil => intro cs; simp [checksumLoop]
  | cons c rest ih =>
    intro cs
    by_cases hc : c = '*' <;> simp [checksumLoop, hc, ih, List.takeWhile_cons]

/-- Shared helper: Boolean equality on integers is the decided
propositional equality. -/
theorem int_beq_eq_decide (a b : Int) : (a == b) = decide (a = b) := by
  cases h : decide (a = b)
  · simp only [decide_eq_false_iff_not] at h
    simp [h]
  · simp only [decide_eq_true_eq] at h
    simp [h]

/-- Counterexample to C4 as stated: on `"$A*B*41"` the validator
returns `true` (its loop stops at the first `*`), while the claim's
contract — XOR up to the terminating, third-from-last `*` — computes
0x29 ≠ 0x41 and demands `false`. -/
theorem checkChecksum_claim_counterexample :
    checkChecksum "$A*B*41".toList = true ∧
    claimChecksumValid "$A*B*41".toList = false := by decide

/-- **C4 (amended)**: `checkChecksum line` is `true` iff the line has
length at least 4, starts with `$`, has `*` as its third-from-last
character, its final two characters parse as a hexadecimal number, and
the exclusive-or of every byte strictly between the leading `$` and
the **first** `*` equals that number (on `*`-free bodies this is the
span up to the terminating `*`); in particular the sample `$GPRMC`
line validates with trailer `*74` and fails with trailer `*72`. -/
theorem checkChecksum_characterization :
    (∀ line : Str, checkChecksum line = amendedChecksumValid line) ∧
    checkChecksum
      "$GPRMC,162254.00,A,3723.02837,N,12159.39853,W,0.820,188.36,110706,,,A*74".toList
      = true ∧
    checkChecksum
      "$GPRMC,162254.00,A,3723.02837,N,12159.39853,W,0.820,188.36,110706,,,A*72".toList
      = false := by
  refine ⟨fun line => ?_, by decide, by decide⟩
  unfold checkChecksum amendedChecksumValid
  by_cases h1 : line.length < 4
  · have h4 : (decide (4 ≤ line.length)) = false := by
      simp only [decide_eq_false_iff_not]; omega
    rw [if_pos h1, h4, Bool.false_and, Bool.false_and, Bool.false_and]
  · have h4 : (decide (4 ≤ line.length)) = true := by
      simp only [decide_eq_true_eq]; omega
    rw [if_neg h1, h4, Bool.true_and]
    by_cases h2 : line.headD ' ' = '$'
    · have h2b : (decide (line.headD ' ' = '$')) = true := by
        simp only [decide_eq_true_eq]; exact h2
      rw [if_neg (fun hh => hh h2), h2b, Bool.true_and]
      by_cases h3 : line.getD (line.length - 3) ' ' = '*'
      · have h3b : (decide (line.getD (line.length - 3) ' ' = '*')) = true := by
          simp only [decide_eq_true_eq]; exact h3
        rw [if_neg (fun hh => hh h3), h3b, Bool.true_and]
        cases hp : goParseHex (line.drop (line.length - 2)) with
        | none => simp only [hp]
        | some n =>
          simp only [hp, checksumLoop_eq_foldl]
          exact int_beq_eq_decide _ _
      · have h3b : (decide (line.getD (line.length - 3) ' ' = '*')) = false := by
          simp only [decide_eq_false_iff_not]; exact h3
        rw [if_pos h3, h3b, Bool.false_and]
    · have h2b : (decide (line.headD ' ' = '$')) = false := by
        simp only [decide_eq_false_iff_not]; exact h2
      rw [if_pos h2, h2b, Bool.false_and, Bool.false_and]

/-- **C5**: the deferred-error primitives yield zero on an empty field
without touching the retained error; a non-empty, malformed field
yields zero and records the failure; the value produced for any field
is independent of previously recorded failures (sibling fields keep
parsing); and when several fields fail in one record the retained
error is the most recent failure's. -/
theorem cumulativeErrorParser_deferred :
    (∀ c : cumulativeErrorParser,
       c.parseFloat [] = (Frac.zero, c) ∧ c.parseInt [] = (0, c)) ∧
    (∀ (c : cumulativeErrorParser) (s : Str), s ≠ [] → goParseFloat s = none →
       c.parseFloat s = (Frac.zero, ⟨some (Err.floatSyntax s)⟩)) ∧
    (∀ (c : cumulativeErrorParser) (s : Str), s ≠ [] → goParseInt s = none →
       c.parseInt s = (0, ⟨some (Err.intSyntax s)⟩)) ∧
    (∀ (c : cumulativeErrorParser) (s : Str),
       (c.parseFloat s).1 = (cpNew.parseFloat s).1 ∧
       (c.parseInt s).1 = (cpNew.parseInt s).1) ∧
    (∀ (c : cumulativeErrorParser) (s1 s2 : Str), s1 ≠ [] → s2 ≠ [] →
       goParseFloat s1 = none → goParseFloat s2 = none →
       ((c.parseFloat s1).2.parseFloat s2).2.err = some (Err.floatSyntax s2)) := by
  refine ⟨fun c => ?_, fun c s h1 h2 => ?_, fun c s h1 h2 => ?_,
          fun c s => ⟨?_, ?_⟩, fun c s1 s2 h1 h2 h3 h4 => ?_⟩
  · exact ⟨by simp [cumulativeErrorParser.parseFloat],
           by simp [cumulativeErrorParser.parseInt]⟩
  · simp [cumulativeErrorParser.parseFloat, h1, h2]
  · simp [cumulativeErrorParser.parseInt, h1, h2]
  · by_cases hs : s = []
    · simp [cumulativeErrorParser.parseFloat, hs]
    · cases hv : goParseFloat s <;>
        simp [cumulativeErrorParser.parseFloat, hs, hv]
  · by_cases hs : s = []
    · simp [cumulativeErrorParser.parseInt, hs]
    · cases hv : goParseInt s <;>
        simp [cumulativeErrorParser.parseInt, hs, hv]
  · simp [cumulativeErrorParser.parseFloat, h1, h2, h3, h4]

/-- Witness for C5: an empty field leaves the state untouched, and
after the fields `"x"` then `"y"` both fail, the retained error names
`"y"`, the most recent failure. -/
theorem cumulativeErrorParser_deferred_witness :
    cpNew.parseFloat [] = (Frac.zero, cpNew) ∧
    ((cpNew.parseFloat "x".toList).2.parseFloat "y".toList).2.err =
      some (Err.floatSyntax "y".toList) := by
  refine ⟨(cumulativeErrorParser_deferred.1 cpNew).1, ?_⟩
  exact cumulativeErrorParser_deferred.2.2.2.2 cpNew "x".toList "y".toList
    (by decide) (by decide) (by decide) (by decide)

/-- **C7**: `parseDMS` splits off a 2-character degree part for the
`N`/`S` hemisphere markers and a 3-character one for `E`/`W`, adds the
remaining minutes divided by 60, and negates exactly for `S` and `W`;
in particular `parseDMS("3723.02837", "S")` is within 1e-5 degrees of
-37.3838062 and `parseDMS("12159.39853", "W")` is within 1e-5 degrees
of -121.9899755. -/
theorem parseDMS_decode :
    (∀ (c : cumulativeErrorParser) (s : Str) (d m : Frac),
       goParseFloat (s.take 2) = some d → goParseFloat (s.drop 2) = some m →
       (c.parseDMS s "N".toList).1 = d.add (m.divNat 60) ∧
       (c.parseDMS s "S".toList).1 = (d.add (m.divNat 60)).neg) ∧
    (∀ (c : cumulativeErrorParser) (s : Str) (d m : Frac),
       goParseFloat (s.take 3) = some d → goParseFloat (s.drop 3) = some m →
       (c.parseDMS s "E".toList).1 = d.add (m.divNat 60) ∧
       (c.parseDMS s "W".toList).1 = (d.add (m.divNat 60)).neg) ∧
    ((cpNew.parseDMS "3723.02837".toList "S".toList).1.sub
        ⟨-373838062, 10000000⟩).absLt ⟨1, 100000⟩ ∧
    ((cpNew.parseDMS "12159.39853".toList "W".toList).1.sub
        ⟨-1219899755, 10000000⟩).absLt ⟨1, 100000⟩ := by
  refine ⟨fun c s d m hd hm => ?_, fun c s d m hd hm => ?_, by decide, by decide⟩
  · have hgf : goParseFloat ([] : Str) = none := by decide
    have hd' : s.take 2 ≠ [] := fun h => by
      rw [h, hgf] at hd; exact Option.noConfusion hd
    have hm' : s.drop 2 ≠ [] := fun h => by
      rw [h, hgf] at hm; exact Option.noConfusion hm
    constructor <;>
      simp [cumulativeErrorParser.parseDMS, cumulativeErrorParser.parseFloat,
            hd', hm', hd, hm]
  · have hgf : goParseFloat ([] : Str) = none := by decide
    have hd' : s.take 3 ≠ [] := fun h => by
      rw [h, hgf] at hd; exact Option.noConfusion hd
    have hm' : s.drop 3 ≠ [] := fun h => by
      rw [h, hgf] at hm; exact Option.noConfusion hm
    constructor <;>
      simp [cumulativeErrorParser.parseDMS, cumulativeErrorParser.parseFloat,
            hd', hm', hd, hm]

/-- Witness for C7: the latitude example evaluated through the general
clause, with its exact degree and minutes sub-parses. -/
theorem parseDMS_decode_witness :
    (cpNew.parseDMS "3723.02837".toList "S".toList).1 =
      ((⟨37, 1⟩ : Frac).add ((⟨2302837, 100000⟩ : Frac).divNat 60)).neg := by
  exact (parseDMS_decode.1 cpNew "3723.02837".toList ⟨37, 1⟩ ⟨2302837, 100000⟩
    (by decide) (by decide)).2

/-- **C8**: whenever `rmcParser` hands a record to the consumer, an
empty magnetic-variation field (field 10) gives magnetic variation
exactly zero, and a parsed non-empty field's value has its sign
flipped exactly when the direction field (field 11) is `W`. -/
theorem rmc_magvar (parts : List Str) (caps : Caps) (r : RMC)
    (hr : (rmcParser parts caps).1 = [Event.rmc r]) :
    (parts.getD 10 [] = [] → r.Magvar = Frac.zero) ∧
    (∀ v : Frac, goParseFloat (parts.getD 10 []) = some v →
       r.Magvar = if parts.getD 11 [] = "W".toList then v.neg else v) := by
  cases hc : caps.rmc with
  | false => rw [rmcParser, hc] at hr; simp at hr
  | true =>
    rw [rmcParser, hc] at hr
    simp only [Bool.not_true, Bool.false_eq_true, if_false] at hr
    cases hclk : parseClock (parts.getD 1 []) with
    | none => rw [hclk] at hr; simp at hr
    | some clk =>
      cases hdate : parseDate (parts.getD 9 []) with
      | none => rw [hclk, hdate] at hr; simp at hr
      | some date =>
        rw [hclk, hdate] at hr
        have hgf : goParseFloat ([] : Str) = none := by decide
        by_cases h10 : parts.getD 10 [] = []
        · simp only [h10, ne_eq, not_true_eq_false, if_false, ite_false] at hr
          split at hr
          · simp at hr
          · simp only [List.cons.injEq, and_true, Event.rmc.injEq] at hr
            refine ⟨fun _ => ?_, fun v hv => ?_⟩
            · rw [← hr]
            · rw [h10, hgf] at hv; exact Option.noConfusion hv
        · simp only [h10, ne_eq, not_false_eq_true, if_true] at hr
          split at hr
          · simp at hr
          · simp only [List.cons.injEq, and_true, Event.rmc.injEq] at hr
            refine ⟨fun h => absurd h h10, fun v hv => ?_⟩
            rw [← hr]
            simp only [cumulativeErrorParser.parseFloat, h10, hv, if_neg]
            split <;> rfl

/-- The RMC fields of the magnetic-variation regression test. -/
def rmcMagvarParts : List Str :=
  ["$GPRMC".toList, "123519".toList, "A".toList, "4807.038".toList,
   "N".toList, "01131.000".toList, "E".toList, "022.4".toList,
   "084.4".toList, "230394".toList, "003.1".toList, "W".toList]

/-- The record `rmcParser` produces for `rmcMagvarParts`. -/
def rmcMagvarRec : RMC :=
  ⟨⟨12, 35, 19, Frac.zero⟩, ⟨23, 3, 1994⟩, 'A', ⟨2887038, 60000⟩,
   ⟨691000, 60000⟩, ⟨224, 10⟩, ⟨844, 10⟩, ⟨-31, 10⟩⟩

/-- Witness for C8: on the regression-test frame with magnetic
variation `003.1,W`, the decoded record's magnetic variation is the
negated parsed value. -/
theorem rmc_magvar_witness :
    (rmcParser rmcMagvarParts allCaps).1 = [Event.rmc rmcMagvarRec] ∧
    rmcMagvarRec.Magvar = Frac.neg ⟨31, 10⟩ := by
  refine ⟨by decide, ?_⟩
  have h := rmc_magvar rmcMagvarParts allCaps rmcMagvarRec (by decide)
  have h2 := h.2 ⟨31, 10⟩ (by decide)
  simpa [rmcMagvarParts] using h2

/-- **C9**: a checksum-valid line whose sentence tag is not in the
registry is silently dropped — `parseMessage` returns no error and
produces no handler invocation, and driving that line produces no
error-policy call and no failure. -/
theorem unknown_tag_silently_dropped (line : Str) (caps : Caps)
    (io : Option Err) (p : Option (Err → Option Err))
    (hck : checkChecksum line = true)
    (hun : parsersFor ((List.splitOn ',' (line.take (line.length - 3))).headD []) = none) :
    parseMessage line caps = ([], none) ∧
    Process [line] io caps p = ([], [], io) := by
  have hp : parseMessage line caps = ([], none) := by
    unfold parseMessage
    rw [hck]
    simp only [Bool.not_true, Bool.false_eq_true, if_false, hun]
  refine ⟨hp, ?_⟩
  unfold Process processLines
  rw [hp]
  simp [processLines]

/-- Witness for C9: the checksum-valid `$GPXTE*5E` carries an
unregistered tag and is dropped without error or policy call. -/
theorem unknown_tag_silently_dropped_witness :
    parseMessage "$GPXTE*5E".toList allCaps = ([], none) ∧
    Process ["$GPXTE*5E".toList] none allCaps none = ([], [], none) := by
  exact unknown_tag_silently_dropped "$GPXTE*5E".toList allCaps none none
    (by decide) rfl

/-- Shared helper: driver step on a line that decodes cleanly. -/
theorem processSpecLines_cons_ok (h : Str → Err → Option Err) (caps : Caps)
    (io : Option Err) (l : Str) (rest : List Str)
    (hd : (parseMessage l caps).2 = none) :
    processSpecLines h caps io (l :: rest) =
      ((parseMessage l caps).1 ++ (processSpecLines h caps io rest).1,
       (processSpecLines h caps io rest).2) := by
  conv_lhs => rw [processSpecLines]
  simp [hd]

/-- Shared helper: driver step on a failing line whose policy decision
is to continue. -/
theorem processSpecLines_cons_continue (h : Str → Err → Option Err) (caps : Caps)
    (io : Option Err) (l : Str) (rest : List Str) (e : Err)
    (hd : (parseMessage l caps).2 = some e) (hpol : h l e = none) :
    processSpecLines h caps io (l :: rest) =
      ((parseMessage l caps).1 ++ (processSpecLines h caps io rest).1,
       (l, e) :: (processSpecLines h caps io rest).2.1,
       (processSpecLines h caps io rest).2.2) := by
  conv_lhs => rw [processSpecLines]
  simp [hd, hpol]

/-- Shared helper: driver step on a failing line whose policy decision
aborts. -/
theorem processSpecLines_cons_abort (h : Str → Err → Option Err) (caps : Caps)
    (io : Option Err) (l : Str) (rest : List Str) (e abort : Err)
    (hd : (parseMessage l caps).2 = some e) (hpol : h l e = some abort) :
    processSpecLines h caps io (l :: rest) =
      ((parseMessage l caps).1, [(l, e)], some abort) := by
  conv_lhs => rw [processSpecLines]
  simp [hd, hpol]

/-- **C6**: per-line failures are passed, with the offending raw line,
to the error policy; a non-`nil` policy result is returned
immediately, aborting iteration; the default policy (no policy
supplied) always continues; end of input without an aborting decision
returns the source's status directly — success when the source is
exhausted, the I/O failure itself otherwise, bypassing the policy. -/
theorem process_error_policy :
    (∀ (lines : List Str) (caps : Caps) (io : Option Err),
       (ProcessSpec lines io caps none).2.2 = io) ∧
    (∀ (lines : List Str) (caps : Caps) (io : Option Err)
       (p : Str → Err → Option Err), (∀ l e, p l e = none) →
       (ProcessSpec lines io caps (some p)).2.1 =
         lines.filterMap (fun l => ((parseMessage l caps).2).map fun e => (l, e)) ∧
       (ProcessSpec lines io caps (some p)).2.2 = io) ∧
    (∀ (l : Str) (rest : List Str) (caps : Caps) (io : Option Err)
       (p : Str → Err → Option Err) (e abort : Err),
       (parseMessage l caps).2 = some e → p l e = some abort →
       ProcessSpec (l :: rest) io caps (some p) =
         ((parseMessage l caps).1, [(l, e)], some abort)) := by
  refine ⟨fun lines caps io => ?_, fun lines caps io p hp => ?_,
          fun l rest caps io p e abort hme hpol => ?_⟩
  · induction lines with
    | nil => rfl
    | cons l rest ih =>
      show (processSpecLines (fun _ _ => none) caps io (l :: rest)).2.2 = io
      cases hd : (parseMessage l caps).2 with
      | none => rw [processSpecLines_cons_ok _ _ _ _ _ hd]; exact ih
      | some e => rw [processSpecLines_cons_continue _ _ _ _ _ _ hd rfl]; exact ih
  · induction lines with
    | nil => exact ⟨rfl, rfl⟩
    | cons l rest ih =>
      obtain ⟨ih1, ih2⟩ := ih
      have hstep : ∀ g : List Event × List (Str × Err) × Option Err,
          (processSpecLines p caps io (l :: rest)) = g →
          (ProcessSpec (l :: rest) io caps (some p)) = g := fun g hg => hg
      cases hd : (parseMessage l caps).2 with
      | none =>
        refine ⟨?_, ?_⟩
        · show (processSpecLines p caps io (l :: rest)).2.1 = _
          rw [processSpecLines_cons_ok _ _ _ _ _ hd]
          simpa [hd] using ih1
        · show (processSpecLines p caps io (l :: rest)).2.2 = io
          rw [processSpecLines_cons_ok _ _ _ _ _ hd]
          exact ih2
      | some e =>
        refine ⟨?_, ?_⟩
        · show (processSpecLines p caps io (l :: rest)).2.1 = _
          rw [processSpecLines_cons_continue _ _ _ _ _ _ hd (hp l e)]
          simpa [hd] using ih1
        · show (processSpecLines p caps io (l :: rest)).2.2 = io
          rw [processSpecLines_cons_continue _ _ _ _ _ _ hd (hp l e)]
          exact ih2
  · show processSpecLines p caps io (l :: rest) = _
    rw [processSpecLines_cons_abort _ _ _ _ _ _ _ hme hpol]

/-- Witness for C6: a bad-checksum line under an aborting policy makes
the driver return the policy's value with the line recorded, and under
an always-continue policy the line-error pair is still reported while
the driver ends with the source's status. -/
theorem process_error_policy_witness :
    ProcessSpec ["$GPGSV,4,1,1".toList] none allCaps
        (some fun _ e => some e) =
      ([], [("$GPGSV,4,1,1".toList, Err.badChecksum)], some Err.badChecksum) ∧
    (ProcessSpec ["$GPGSV,4,1,1".toList] none allCaps
        (some fun _ _ => none)).2.1 =
      [("$GPGSV,4,1,1".toList, Err.badChecksum)] ∧
    (ProcessSpec ["$GPGSV,4,1,1".toList] none allCaps
        (some fun _ _ => none)).2.2 = none ∧
    (ProcessSpec ["$GPGSV,4,1,1".toList] (some (Err.other "read".toList)) allCaps
        none).2.2 = some (Err.other "read".toList) := by
  have h1 := process_error_policy.2.2 "$GPGSV,4,1,1".toList [] allCaps none
    (fun _ e => some e) Err.badChecksum Err.badChecksum (by decide) rfl
  have h2 := process_error_policy.2.1 ["$GPGSV,4,1,1".toList] allCaps none
    (fun _ _ => none) (fun _ _ => rfl)
  have h3 := process_error_policy.1 ["$GPGSV,4,1,1".toList] allCaps
    (some (Err.other "read".toList))
  refine ⟨?_, ?_, h2.2, h3⟩
  · rw [h1]; decide
  · rw [h2.1]; decide

/-- The supported sentence kinds. -/
inductive Kind where
  | rmc | vtg | gga | gsa | gll | zda | gsv | aam | gst
  deriving DecidableEq, Repr

/-- The decoder registered for each sentence kind. -/
def decoderFor : Kind → List Str → Caps → List Event × Option Err
  | .rmc => rmcParser
  | .vtg => vtgParser
  | .gga => ggaParser
  | .gsa => gsaParser
  | .gll => gllParser
  | .zda => zdaParser
  | .gsv => gsvParser
  | .aam => aamParser
  | .gst => gstParser

/-- Whether the consumer implements the handler interface of a kind. -/
def capFor : Kind → Caps → Bool
  | .rmc, c => c.rmc
  | .vtg, c => c.vtg
  | .gga, c => c.gga
  | .gsa, c => c.gsa
  | .gll, c => c.gll
  | .zda, c => c.zda
  | .gsv, c => c.gsv
  | .aam, c => c.aam
  | .gst, c => c.gst

/-- Token lists on which the corresponding Go decoder is free of
out-of-range indexing (the decoders with explicit shape checks accept
any token list). -/
def shapeOK : Kind → List Str → Prop
  | .rmc, parts => 12 ≤ parts.length ∧ parts.getD 2 [] ≠ []
  | .vtg, parts => 9 ≤ parts.length
  | .gga, _ => True
  | .gsa, _ => True
  | .gll, parts => 7 ≤ parts.length
  | .zda, _ => True
  | .gsv, parts => 4 ≤ parts.length
  | .aam, parts => 4 ≤ parts.length
  | .gst, parts => 9 ≤ parts.length

/-- A reported failure of a numeric sub-field (the deferred-error
primitives' failures), as opposed to shape or time failures. -/
def isFieldFailure : Option Err → Prop
  | some (Err.floatSyntax _) => True
  | some (Err.intSyntax _) => True
  | _ => False

/-- A checksum-valid GGA frame whose latitude field `4807.03X`
contains a non-digit. -/
def ggaBadLine : Str :=
  "$GPGGA,162254.00,4807.03X,N,01131.000,E,1,08,0.9,545.4,M,46.9,M,,*02".toList

/-- Counterexample to C1 as stated: `ggaBadLine` is checksum-valid and
its latitude sub-field fails to decode — the decoder reports the field
decode failure — yet the consumer's handler is invoked (once, with the
partially-decoded record). -/
theorem dispatch_claim_counterexample :
    checkChecksum ggaBadLine = true ∧
    (parseMessage ggaBadLine allCaps).2 = some (Err.floatSyntax "07.03X".toList) ∧
    (parseMessage ggaBadLine allCaps).1.length = 1 := by decide

/-- **C1 (amended)**: a handler is never invoked more than once per
frame, and every successful decode by a consumer holding the matching
capability invokes it exactly once; on a field decode failure the RMC
and VTG decoders do not invoke the handler, but the GGA, GSA, ZDA,
GSV, AAM and GST decoders invoke the handler (once, with the record
built from the defaulted fields) and report the failure afterwards,
and the GLL decoder invokes the handler and reports no failure at
all. -/
theorem dispatch_on_decode_outcome :
    (∀ (k : Kind) (parts : List Str) (caps : Caps),
       (decoderFor k parts caps).1.length ≤ 1) ∧
    (∀ (k : Kind) (parts : List Str) (caps : Caps), shapeOK k parts →
       capFor k caps = true → (decoderFor k parts caps).2 = none →
       (decoderFor k parts caps).1.length = 1) ∧
    (∀ (parts : List Str) (caps : Caps) (e : Err),
       (rmcParser parts caps).2 = some e → (rmcParser parts caps).1 = []) ∧
    (∀ (parts : List Str) (caps : Caps) (e : Err),
       (vtgParser parts caps).2 = some e → (vtgParser parts caps).1 = []) ∧
    (∀ (k : Kind) (parts : List Str) (caps : Caps),
       k ∈ ([.gga, .gsa, .zda, .gsv, .aam, .gst] : List Kind) → shapeOK k parts →
       isFieldFailure (decoderFor k parts caps).2 →
       (decoderFor k parts caps).1.length = 1) ∧
    (∀ (parts : List Str) (caps : Caps) (clk : Clock), caps.gll = true →
       7 ≤ parts.length → parseClock (parts.getD 5 []) = some clk →
       (gllParser parts caps).1.length = 1 ∧ (gllParser parts caps).2 = none) := by
  refine ⟨fun k parts caps => ?_, fun k parts caps hs hcap herr => ?_,
          fun parts caps e herr => ?_, fun parts caps e herr => ?_,
          fun k parts caps hk hs hff => ?_,
          fun parts caps clk hcap hlen hclk => ?_⟩
  · cases k <;>
      (simp only [decoderFor, rmcParser, vtgParser, ggaParser, gsaParser,
        gllParser, zdaParser, gsvParser, aamParser, gstParser]
       repeat' split
       all_goals simp)
  · cases k <;>
      (simp only [capFor] at hcap
       revert herr
       simp only [decoderFor, rmcParser, vtgParser, ggaParser, gsaParser,
         gllParser, zdaParser, gsvParser, aamParser, gstParser]
       simp only [hcap, Bool.not_true, Bool.false_eq_true, if_false]
       repeat' split
       all_goals simp_all)
  · revert herr
    unfold rmcParser
    dsimp only
    repeat' split
    all_goals simp_all
  · revert herr
    unfold vtgParser
    dsimp only
    repeat' split
    all_goals simp_all
  · simp only [List.mem_cons, List.not_mem_nil, or_false] at hk
    revert hff
    rcases hk with rfl | rfl | rfl | rfl | rfl | rfl <;>
      (simp only [decoderFor, ggaParser, gsaParser, zdaParser, gsvParser,
        aamParser, gstParser]
       repeat' split
       all_goals simp [isFieldFailure])
  · unfold gllParser
    simp only [hcap, Bool.not_true, Bool.false_eq_true, if_false, hclk]
    simp

/-- The tokens of `ggaBadLine`. -/
def ggaBadParts : List Str :=
  ["$GPGGA".toList, "162254.00".toList, "4807.03X".toList, "N".toList,
   "01131.000".toList, "E".toList, "1".toList, "08".toList, "0.9".toList,
   "545.4".toList, "M".toList, "46.9".toList, "M".toList, [], []]

/-- An RMC token list whose latitude sub-field `48X7.038` is
malformed. -/
def rmcBadParts : List Str :=
  ["$GPRMC".toList, "123519".toList, "A".toList, "48X7.038".toList,
   "N".toList, "01131.000".toList, "E".toList, "022.4".toList,
   "084.4".toList, "230394".toList, "003.1".toList, "W".toList]

/-- A GLL token list whose latitude sub-field `49X6.45` is malformed
but whose time field is valid. -/
def gllBadParts : List Str :=
  ["$GPGLL".toList, "49X6.45".toList, "N".toList, "12311.12".toList,
   "W".toList, "225444".toList, "A".toList]

/-- Witness for C1 (amended): the malformed GGA frame still invokes
its handler; the malformed RMC frame invokes nothing; the malformed
GLL frame invokes its handler and reports no failure. -/
theorem dispatch_on_decode_outcome_witness :
    (ggaParser ggaBadParts allCaps).1.length = 1 ∧
    (rmcParser rmcBadParts allCaps).1 = [] ∧
    (gllParser gllBadParts allCaps).1.length = 1 ∧
    (gllParser gllBadParts allCaps).2 = none := by
  refine ⟨?_, ?_, ?_, ?_⟩
  · exact dispatch_on_decode_outcome.2.2.2.2.1 .gga ggaBadParts allCaps
      (by decide) trivial (by show True; trivial)
  · exact dispatch_on_decode_outcome.2.2.1 rmcBadParts allCaps
      (Err.floatSyntax "X7.038".toList) (by decide)
  · exact (dispatch_on_decode_outcome.2.2.2.2.2 gllBadParts allCaps
      ⟨22, 54, 44, Frac.zero⟩ rfl (by decide) (by decide)).1
  · exact (dispatch_on_decode_outcome.2.2.2.2.2 gllBadParts allCaps
      ⟨22, 54, 44, Frac.zero⟩ rfl (by decide) (by decide)).2
